import Mathlib

set_option maxHeartbeats 1000000
set_option maxRecDepth 8000

/-! Verification of the microps TCP/IP subset.

This file gives a shallow embedding of `src/tcp.c` and `src/ip.c`:
machine integers become `Nat` with explicit `% 2^w` where the C code
wraps, the per-connection PCB becomes a structure, the ingress state
machine `tcp_segment_arrives` becomes a pure function from the selected
PCB and the parsed segment to the updated PCB and the list of emitted
segments, and the byte-level IP/TCP ingress parsers become functions on
`List Nat` byte buffers.  Helper code of the repository that is not part
of the two embedded files (`util.c`: byte-order conversion and the
Internet checksum) is modelled from the specification, as marked on the
corresponding definitions. -/

/-- Modulus of 32-bit unsigned arithmetic (`uint32_t`). -/
def M32 : Nat := 4294967296

/-- Modulus of 64-bit unsigned arithmetic (`size_t` on the reference platform). -/
def E64 : Nat := 18446744073709551616

/-- TCP flag bit `TCP_FLG_FIN` (0x01). -/
def TCP_FLG_FIN : Nat := 1

/-- TCP flag bit `TCP_FLG_SYN` (0x02). -/
def TCP_FLG_SYN : Nat := 2

/-- TCP flag bit `TCP_FLG_RST` (0x04). -/
def TCP_FLG_RST : Nat := 4

/-- TCP flag bit `TCP_FLG_PSH` (0x08). -/
def TCP_FLG_PSH : Nat := 8

/-- TCP flag bit `TCP_FLG_ACK` (0x10). -/
def TCP_FLG_ACK : Nat := 16

/-- TCP flag bit `TCP_FLG_URG` (0x20). -/
def TCP_FLG_URG : Nat := 32

/-- Embedding of the macro `TCP_FLG_ISSET(x, y) = ((x & 0x3f) & (y) ? 1 : 0)`. -/
def TCP_FLG_ISSET (x y : Nat) : Bool := decide ((x &&& 63) &&& y ≠ 0)

/-- The PCB states of `tcp.c` (`TCP_PCB_STATE_*`). -/
inductive TcpState
  | FREE
  | CLOSED
  | LISTEN
  | SYN_SENT
  | SYN_RECEIVED
  | ESTABLISHED
  | FIN_WAIT1
  | FIN_WAIT2
  | CLOSING
  | TIME_WAIT
  | CLOSE_WAIT
  | LAST_ACK
deriving DecidableEq

/-- Embedding of `struct ip_endpoint`: a 32-bit address (stored in network
byte order, read as a little-endian `uint32_t`) and a 16-bit port kept in
network order, both as plain `Nat`. -/
structure IpEndpoint where
  addr : Nat
  port : Nat
deriving DecidableEq

/-- Embedding of `struct tcp_segment_info`: `seq`/`ack` are host-order
32-bit values, `len` is the RFC 793 logical length (payload plus one per
SYN/FIN flag) as a 16-bit value, `wnd`/`up` are host-order 16-bit values. -/
structure TcpSegmentInfo where
  seq : Nat
  ack : Nat
  len : Nat
  wnd : Nat
  up : Nat
deriving DecidableEq

/-- Embedding of the anonymous `snd` struct of `struct tcp_pcb`. -/
structure SndVars where
  nxt : Nat
  una : Nat
  wnd : Nat
  up : Nat
  wl1 : Nat
  wl2 : Nat
deriving DecidableEq

/-- Embedding of the anonymous `rcv` struct of `struct tcp_pcb`. -/
structure RcvVars where
  nxt : Nat
  wnd : Nat
  up : Nat
deriving DecidableEq

/-- Embedding of `struct tcp_pcb`.  The C field `local` is a Lean keyword
and is embedded as `localEp` (and `foreign` as `foreignEp` for symmetry).
The fixed 65535-byte receive buffer `buf` is embedded as the list of the
currently buffered payload bytes: the C code keeps those bytes as the
prefix of the array of length `sizeof(buf) - rcv.wnd`, appends arriving
payload at offset `sizeof(buf) - rcv.wnd` (`memcpy` in
`tcp_segment_arrives`) and consumes from the front (`memcpy`/`memmove` in
`tcp_receive`), which on the list model is `++` and `drop`.  The wait/wake
context `ctx` carries no data and is omitted. -/
structure TcpPcb where
  state : TcpState
  localEp : IpEndpoint
  foreignEp : IpEndpoint
  snd : SndVars
  iss : Nat
  rcv : RcvVars
  irs : Nat
  mtu : Nat
  mss : Nat
  buf : List Nat
deriving DecidableEq

/-- One TCP segment handed to `ip_output` by `tcp_output_segment`: the
header fields it fills in plus the payload and the two endpoints.  The
checksum computation and the actual IP transmission performed by
`tcp_output_segment` are not part of the modelled effect. -/
structure OutSegment where
  seq : Nat
  ack : Nat
  flg : Nat
  wnd : Nat
  payload : List Nat
  src : IpEndpoint
  dst : IpEndpoint
deriving DecidableEq

/-- Embedding of `tcp_output_segment(seq, ack, flg, wnd, data, len, local,
foreign)`: the emitted segment record. -/
def tcp_output_segment (seq ack flg wnd : Nat) (data : List Nat)
    (loc frn : IpEndpoint) : OutSegment :=
  { seq := seq, ack := ack, flg := flg, wnd := wnd, payload := data,
    src := loc, dst := frn }

/-- Embedding of `tcp_output(pcb, flg, data, len)`: `seq` is `pcb.iss` when
`SYN` is among the flags and `pcb.snd.nxt` otherwise; `ack` is
`pcb.rcv.nxt` and the advertised window is `pcb.rcv.wnd`. -/
def tcp_output (pcb : TcpPcb) (flg : Nat) (data : List Nat) : OutSegment :=
  tcp_output_segment
    (if TCP_FLG_ISSET flg TCP_FLG_SYN then pcb.iss else pcb.snd.nxt)
    pcb.rcv.nxt flg pcb.rcv.wnd data pcb.localEp pcb.foreignEp

/-- Embedding of the `!pcb || pcb->state == CLOSED` branch of
`tcp_segment_arrives`: the segments emitted for an arrival that matches no
usable PCB. -/
def closed_state_resp (seg : TcpSegmentInfo) (flags : Nat)
    (loc frn : IpEndpoint) : List OutSegment :=
  if TCP_FLG_ISSET flags TCP_FLG_RST then []
  else if ¬ (TCP_FLG_ISSET flags TCP_FLG_ACK = true) then
    [tcp_output_segment 0 ((seg.seq + seg.len) % M32)
      (TCP_FLG_RST ||| TCP_FLG_ACK) 0 [] loc frn]
  else
    [tcp_output_segment seg.ack 0 TCP_FLG_RST 0 [] loc frn]

/-- Embedding of the acceptability test ("1st check sequence number") of
`tcp_segment_arrives`, exactly as the C code computes `acceptable`: the
comparisons are the C `<=`/`<` on the raw `uint32_t` values and the
additions wrap modulo 2^32. -/
def seg_acceptable (seg : TcpSegmentInfo) (rcvnxt rcvwnd : Nat) : Bool :=
  if seg.len = 0 then
    if rcvwnd = 0 then decide (seg.seq = rcvnxt)
    else decide (rcvnxt ≤ seg.seq ∧ seg.seq < (rcvnxt + rcvwnd) % M32)
  else
    if rcvwnd = 0 then false
    else decide ((rcvnxt ≤ seg.seq ∧ seg.seq < (rcvnxt + rcvwnd) % M32) ∨
      (rcvnxt ≤ (seg.seq + seg.len - 1) % M32 ∧
        (seg.seq + seg.len - 1) % M32 < (rcvnxt + rcvwnd) % M32))

/-- Embedding of the "7th, process the segment text" step of
`tcp_segment_arrives`: in ESTABLISHED with a non-empty payload the bytes
are appended to the receive buffer, `rcv.nxt` becomes `seg.seq + seg.len`
(mod 2^32), `rcv.wnd` shrinks by the payload length (a `uint16_t`
subtraction, so mod 2^16) and one bare ACK is emitted. -/
def tcp_step7 (pcb : TcpPcb) (seg : TcpSegmentInfo) (data : List Nat) :
    TcpPcb × List OutSegment :=
  if pcb.state = TcpState.ESTABLISHED ∧ data ≠ [] then
    let pcb1 := { pcb with
      buf := pcb.buf ++ data,
      rcv := { pcb.rcv with
        nxt := (seg.seq + seg.len) % M32,
        wnd := (pcb.rcv.wnd + (65536 - data.length % 65536)) % 65536 } }
    (pcb1, [tcp_output pcb1 TCP_FLG_ACK []])
  else (pcb, [])

/-- Embedding of the ESTABLISHED arm of the "5th check the ACK field" step
of `tcp_segment_arrives` (also reached from SYN_RECEIVED by fall-through),
followed by the segment-text step.  All comparisons are the C native
`<`/`<=`/`>` on the raw values, as in the source. -/
def tcp_est_ack (pcb : TcpPcb) (seg : TcpSegmentInfo) (data : List Nat) :
    TcpPcb × List OutSegment :=
  if pcb.snd.una < seg.ack ∧ seg.ack ≤ pcb.snd.nxt then
    let snd1 := { pcb.snd with una := seg.ack }
    let snd2 :=
      if snd1.wl1 < seg.seq ∨ (snd1.wl1 = seg.seq ∧ snd1.wl2 ≤ seg.ack) then
        { snd1 with wnd := seg.wnd, wl1 := seg.seq, wl2 := seg.ack }
      else snd1
    tcp_step7 { pcb with snd := snd2 } seg data
  else if seg.ack < pcb.snd.una then
    tcp_step7 pcb seg data
  else if pcb.snd.nxt < seg.ack then
    (pcb, [tcp_output pcb TCP_FLG_ACK []])
  else
    tcp_step7 pcb seg data

/-- Embedding of the "Otherwise" part of `tcp_segment_arrives` (everything
after the LISTEN and SYN_SENT cases): sequence-number check with the bare
ACK reply on an unacceptable segment, the ACK-flag requirement, the
SYN_RECEIVED/ESTABLISHED ACK processing and the segment-text step. -/
def tcp_arrives_rest (pcb : TcpPcb) (seg : TcpSegmentInfo) (flags : Nat)
    (data : List Nat) (loc frn : IpEndpoint) : TcpPcb × List OutSegment :=
  if (pcb.state = TcpState.SYN_RECEIVED ∨ pcb.state = TcpState.ESTABLISHED) ∧
      seg_acceptable seg pcb.rcv.nxt pcb.rcv.wnd = false then
    (pcb, if TCP_FLG_ISSET flags TCP_FLG_RST then []
          else [tcp_output pcb TCP_FLG_ACK []])
  else if ¬ (TCP_FLG_ISSET flags TCP_FLG_ACK = true) then
    (pcb, [])
  else if pcb.state = TcpState.SYN_RECEIVED then
    if pcb.snd.una ≤ seg.ack ∧ seg.ack ≤ pcb.snd.nxt then
      tcp_est_ack { pcb with state := TcpState.ESTABLISHED } seg data
    else
      (pcb, [tcp_output_segment seg.ack 0 TCP_FLG_RST 0 [] loc frn])
  else if pcb.state = TcpState.ESTABLISHED then
    tcp_est_ack pcb seg data
  else
    tcp_step7 pcb seg data

/-- Embedding of `tcp_segment_arrives(seg, flags, data, len, local,
foreign)`.  The PCB selected by `tcp_pcb_select` is passed in as an
`Option TcpPcb`; `rand` is the value drawn by `random()` for the initial
send sequence number in the LISTEN/SYN case (stored into the `uint32_t`
field `iss`, hence mod 2^32).  The result is the updated PCB (unchanged
when the segment is dropped) and the list of emitted segments.  The
`sched_wakeup` calls carry no PCB data and are not modelled. -/
def tcp_segment_arrives (pcb? : Option TcpPcb) (seg : TcpSegmentInfo)
    (flags : Nat) (data : List Nat) (loc frn : IpEndpoint) (rand : Nat) :
    Option TcpPcb × List OutSegment :=
  match pcb? with
  | none => (none, closed_state_resp seg flags loc frn)
  | some pcb =>
    if pcb.state = TcpState.CLOSED then
      (some pcb, closed_state_resp seg flags loc frn)
    else if pcb.state = TcpState.LISTEN then
      if TCP_FLG_ISSET flags TCP_FLG_RST then (some pcb, [])
      else if TCP_FLG_ISSET flags TCP_FLG_ACK then
        (some pcb, [tcp_output_segment seg.ack 0 TCP_FLG_RST 0 [] loc frn])
      else if TCP_FLG_ISSET flags TCP_FLG_SYN then
        let pcb1 := { pcb with
          localEp := loc, foreignEp := frn,
          rcv := { pcb.rcv with wnd := 65535, nxt := (seg.seq + 1) % M32 },
          irs := seg.seq, iss := rand % M32 }
        let out := tcp_output pcb1 (TCP_FLG_SYN ||| TCP_FLG_ACK) []
        let pcb2 := { pcb1 with
          snd := { pcb1.snd with nxt := (pcb1.iss + 1) % M32, una := pcb1.iss },
          state := TcpState.SYN_RECEIVED }
        (some pcb2, [out])
      else (some pcb, [])
    else if pcb.state = TcpState.SYN_SENT then
      (some pcb, [])
    else
      let r := tcp_arrives_rest pcb seg flags data loc frn
      (some r.1, r.2)

/-- Result of one blocking sleep inside `tcp_receive`: either the sleeper
is woken with the PCB in a possibly changed state (another thread mutated
it while the mutex was released), or `sched_sleep` reports the external
interrupt (`return -1`, surfaced as `EINTR`). -/
inductive SleepOutcome
  | woken (p : TcpPcb)
  | interrupted
deriving DecidableEq

/-- Result of `tcp_receive`: the byte count and bytes copied out together
with the updated PCB, the `EINTR` failure (PCB untouched), the
unknown-state failure, or `blocked` when the model's schedule of sleep
outcomes is exhausted while the buffer is still empty (the C call would
still be asleep). -/
inductive RecvResult
  | ok (n : Nat) (out : List Nat) (p : TcpPcb)
  | intr (p : TcpPcb)
  | badState (p : TcpPcb)
  | blocked (p : TcpPcb)
deriving DecidableEq

/-- Embedding of `tcp_receive(id, buf, size)` for the PCB the handle
resolves to.  `sleeps` supplies the outcome of each `sched_sleep` in
order; a `woken` outcome carries the PCB as it stands when the sleeper
reacquires the mutex. -/
def tcp_receive (pcb : TcpPcb) (size : Nat) (sleeps : List SleepOutcome) :
    RecvResult :=
  if pcb.state = TcpState.ESTABLISHED then
    let remain := 65535 - pcb.rcv.wnd
    if remain = 0 then
      match sleeps with
      | [] => RecvResult.blocked pcb
      | SleepOutcome.interrupted :: _ => RecvResult.intr pcb
      | SleepOutcome.woken p :: rest => tcp_receive p size rest
    else
      let len := min size remain
      RecvResult.ok len (pcb.buf.take len)
        { pcb with
          buf := pcb.buf.drop len,
          rcv := { pcb.rcv with wnd := (pcb.rcv.wnd + len) % 65536 } }
  else RecvResult.badState pcb

/-! IP layer (`src/ip.c`) and the byte-level helpers it uses.  Buffers are
lists of byte values; multi-byte loads read little-endian host memory, as
on the reference platform, so a field kept in network byte order reads
back byte-swapped. -/

/-- Modelled from the spec: byte-order conversion for 16-bit values
(`ntoh16`/`hton16` from the missing `util.c`) on a little-endian host: the
two bytes are swapped. -/
def ntoh16 (v : Nat) : Nat := (v % 256) * 256 + (v / 256) % 256

/-- Modelled from the spec: byte-order conversion for 32-bit values
(`ntoh32`/`hton32` from the missing `util.c`) on a little-endian host: the
four bytes are reversed. -/
def ntoh32 (v : Nat) : Nat :=
  (v % 256) * 16777216 + (v / 256 % 256) * 65536 +
    (v / 65536 % 256) * 256 + v / 16777216 % 256

/-- Load of a `uint16_t` at byte offset `i` of a buffer (little-endian
host memory). -/
def read16 (d : List Nat) (i : Nat) : Nat :=
  d.getD i 0 + 256 * d.getD (i + 1) 0

/-- Load of a `uint32_t` at byte offset `i` of a buffer (little-endian
host memory). -/
def read32 (d : List Nat) (i : Nat) : Nat :=
  d.getD i 0 + 256 * d.getD (i + 1) 0 + 65536 * d.getD (i + 2) 0 +
    16777216 * d.getD (i + 3) 0

/-- The 16-bit words a buffer presents to the checksum: consecutive
little-endian byte pairs, an odd trailing byte contributing just itself
(the logical zero pad). -/
def words16 : List Nat → List Nat
  | [] => []
  | [b] => [b]
  | b0 :: b1 :: rest => (b0 + 256 * b1) :: words16 rest

/-- One pass of the carry-fold loop, with a structural fuel bound so the
definition evaluates by reduction; each pass strictly decreases the sum,
so a fuel equal to the initial sum always suffices. -/
def foldCarryAux : Nat → Nat → Nat
  | 0, s => s
  | fuel + 1, s => if s < 65536 then s else foldCarryAux fuel (s % 65536 + s / 65536)

/-- Folding of the carries of a one's-complement sum
(`while (sum >> 16) sum = (sum & 0xffff) + (sum >> 16)`). -/
def foldCarry (s : Nat) : Nat := foldCarryAux s s

/-- Modelled from the spec: the Internet checksum `cksum16(addr, count,
init)` of the missing `util.c`: the one's-complement of the
one's-complement 16-bit sum of the buffer's words added to the initial
partial sum. -/
def cksum16 (bytes : List Nat) (init : Nat) : Nat :=
  65535 - foldCarry (init + (words16 bytes).sum)

/-- Embedding of `struct ip_iface`: the unicast address, netmask and the
derived broadcast address, all 32-bit network-order values. -/
structure IpIface where
  unicast : Nat
  netmask : Nat
  broadcast : Nat
deriving DecidableEq

/-- Embedding of `ip_iface_alloc`, on already parsed addresses: the stored
broadcast is `(unicast & netmask) | ~netmask` (the complement of a 32-bit
value is its xor with 0xffffffff). -/
def ip_iface_alloc (unicast netmask : Nat) : IpIface :=
  { unicast := unicast, netmask := netmask,
    broadcast := (unicast &&& netmask) ||| (4294967295 ^^^ netmask) }

/-- Verdict of `ip_input` on one datagram: each rejection names the check
that dropped it (in the order the code performs them); `accept` is
reaching the end of the function. -/
inductive IpVerdict
  | tooShort
  | notIPv4
  | shortHeader
  | shortTotal
  | badChecksum
  | fragment
  | badDst
  | accept
deriving DecidableEq

/-- Embedding of `ip_input(data, len, dev)` for a device whose interface
is `iface`.  The header-length computation reproduces the source
expression `ntoh16(hdr->vhl) & 0x0f * 4` literally (C precedence makes the
mask `0x0f * 4 = 60`, and `vhl` is byte-swapped as a 16-bit value), and
the directed-broadcast comparison reproduces `iface->unicast |
0xff000000`. -/
def ip_input (data : List Nat) (iface : IpIface) : IpVerdict :=
  let len := data.length
  if len < 20 then IpVerdict.tooShort
  else
    let vhl := data.getD 0 0
    if vhl >>> 4 ≠ 4 then IpVerdict.notIPv4
    else
      let hlen := ntoh16 vhl &&& 60
      let total := ntoh16 (read16 data 2)
      if len < hlen then IpVerdict.shortHeader
      else if len < total then IpVerdict.shortTotal
      else if cksum16 data 0 ≠ 0 then IpVerdict.badChecksum
      else
        let offset := ntoh16 (read16 data 6)
        if offset &&& 8192 ≠ 0 ∨ offset &&& 8191 ≠ 0 then IpVerdict.fragment
        else
          let dst := read32 data 16
          if iface.unicast ≠ dst ∧ dst ≠ 4294967295 ∧
              dst ≠ (iface.unicast ||| 4278190080) then IpVerdict.badDst
          else IpVerdict.accept

/-- The header length the spec prescribes for a version-and-header-length
byte: `(vhl & 0x0f) << 2`. -/
def ip_hlen_spec (vhl : Nat) : Nat := (vhl &&& 15) <<< 2

/-- Memory bytes of the TCP pseudo-header `{src, dst, 0, 6, hton16(len)}`:
the two addresses are stored `uint32_t` values (little-endian bytes) and
the length field holds the byte-swapped 16-bit truncation of `len`. -/
def pseudoBytes (src dst tcplen : Nat) : List Nat :=
  [src % 256, src / 256 % 256, src / 65536 % 256, src / 16777216 % 256,
   dst % 256, dst / 256 % 256, dst / 65536 % 256, dst / 16777216 % 256,
   0, 6, tcplen / 256 % 256, tcplen % 256]

/-- The arguments `tcp_input` hands to `tcp_segment_arrives` for one
accepted buffer: the parsed segment info, the raw flag byte, the
data-offset-derived header length, the payload slice and the two
endpoints. -/
structure TcpInputCall where
  seg : TcpSegmentInfo
  flags : Nat
  hlen : Nat
  payload : List Nat
  localEp : IpEndpoint
  foreignEp : IpEndpoint
deriving DecidableEq

/-- Embedding of `tcp_input(data, len, src, dst, iface)` up to the call of
`tcp_segment_arrives`: `none` when the buffer is rejected (too short, bad
checksum, or a limited-broadcast address), otherwise the arguments of the
state-machine call.  `seg.len = len - hlen` is a `size_t` difference
truncated into the `uint16_t` field, so it wraps through 2^64 and is
reduced mod 2^16; the SYN/FIN increments are `uint16_t` increments. -/
def tcp_input (data : List Nat) (src dst : Nat) : Option TcpInputCall :=
  let len := data.length
  if len < 20 then none
  else
    let psum := 65535 - cksum16 (pseudoBytes src dst len) 0
    if cksum16 data psum ≠ 0 then none
    else if src = 4294967295 ∨ dst = 4294967295 then none
    else
      let off := data.getD 12 0
      let flg := data.getD 13 0
      let hlen := (off >>> 4) <<< 2
      let len0 := (len + E64 - hlen) % E64 % 65536
      let len1 := if TCP_FLG_ISSET flg TCP_FLG_SYN then (len0 + 1) % 65536 else len0
      let len2 := if TCP_FLG_ISSET flg TCP_FLG_FIN then (len1 + 1) % 65536 else len1
      some
        { seg :=
            { seq := ntoh32 (read32 data 4), ack := ntoh32 (read32 data 8),
              len := len2, wnd := ntoh16 (read16 data 14),
              up := ntoh16 (read16 data 18) },
          flags := flg, hlen := hlen, payload := data.drop hlen,
          localEp := { addr := dst, port := read16 data 2 },
          foreignEp := { addr := src, port := read16 data 0 } }

/-- The 32-bit sequence-space difference `(a - b) mod 2^32`. -/
def seq32_sub (a b : Nat) : Nat := (a % M32 + M32 - b % M32) % M32

/-- Modelled from the spec: the 32-bit modular (wrapping, serial-number)
strict order on sequence numbers that the spec requires for every
`seq`/`ack` comparison: `a` precedes `b` when the wrapped difference
`b - a` is non-zero and below 2^31. -/
def seq32_lt (a b : Nat) : Bool :=
  decide (0 < seq32_sub b a ∧ seq32_sub b a < 2147483648)

/-- Modelled from the spec: the 32-bit modular (wrapping) non-strict order
on sequence numbers. -/
def seq32_le (a b : Nat) : Bool := decide (a % M32 = b % M32) || seq32_lt a b

/-! Address codec (`ip_addr_pton` / `ip_addr_ntop`).  Strings are handled
through their character lists; the C library routine `strtol` that
`ip_addr_pton` relies on is modelled from its contract (skip leading
whitespace, optional sign, decimal digits, report the first unconsumed
character). -/

/-- The characters `isspace` accepts (the whitespace `strtol` skips). -/
def isSpaceC (c : Char) : Bool :=
  c = ' ' || c = '\t' || c = '\n' || c = '\x0b' || c = '\x0c' || c = '\r'

/-- Decimal digit test for a character. -/
def isDigitC (c : Char) : Bool := '0' ≤ c && c ≤ '9'

/-- Numeric value of a decimal digit character. -/
def digitVal (c : Char) : Nat := c.toNat - 48

/-- Removal of leading whitespace, as `strtol` performs it. -/
def dropSpaces : List Char → List Char
  | [] => []
  | c :: cs => if isSpaceC c then dropSpaces cs else c :: cs

/-- Consumption of a maximal run of decimal digits with a left-to-right
accumulator, returning the value and the unconsumed remainder. -/
def grabDigits : List Char → Nat → Nat × List Char
  | [], acc => (acc, [])
  | c :: cs, acc =>
    if isDigitC c then grabDigits cs (acc * 10 + digitVal c) else (acc, c :: cs)

/-- Modelled from the spec: `strtol(sp, &ep, 10)` as `ip_addr_pton` uses
it.  Leading whitespace is skipped, one `-` or `+` sign is honoured, and
the digit run is converted; `none` is the no-conversion case in which C
leaves `ep == sp` (which `ip_addr_pton` rejects).  The value is returned
as an unbounded `Int`; the only range check the caller performs is
`ret < 0 || ret > 255`, which agrees with the clamped C `long` on every
verdict. -/
def strtol10 (l : List Char) : Option (Int × List Char) :=
  let l1 := dropSpaces l
  let neg : Bool := l1.head? = some '-'
  let l2 := if l1.head? = some '-' ∨ l1.head? = some '+' then l1.tail else l1
  match l2 with
  | [] => none
  | c :: _ =>
    if isDigitC c then
      let r := grabDigits l2 0
      some (if neg then -(r.1 : Int) else (r.1 : Int), r.2)
    else none

/-- Embedding of the component loop of `ip_addr_pton`: `n` components
remain to be parsed (the C loop runs `idx = 0..3`, so it starts at 4);
each component must convert, lie in `[0, 255]`, and be followed by `.`
(inner components) or the end of the string (last component). -/
def pton_comps : Nat → List Char → Option (List Nat)
  | 0, _ => none
  | n + 1, l =>
    match strtol10 l with
    | none => none
    | some (ret, ep) =>
      if ret < 0 ∨ 255 < ret then none
      else if n = 0 then
        if ep = [] then some [ret.toNat] else none
      else
        match ep with
        | [] => none
        | c :: rest =>
          if c = '.' then (pton_comps n rest).map (fun bs => ret.toNat :: bs)
          else none

/-- Embedding of `ip_addr_pton(p, n)`: the four parsed octets are stored
into the four bytes of the little-endian `uint32_t` out-parameter in
order; `none` is the `-1` failure return. -/
def ip_addr_pton (s : String) : Option Nat :=
  (pton_comps 4 s.data).map
    (fun bs => bs.getD 0 0 + 256 * bs.getD 1 0 + 65536 * bs.getD 2 0 +
      16777216 * bs.getD 3 0)

/-- Character of a decimal digit value. -/
def digitChar (d : Nat) : Char := Char.ofNat (48 + d)

/-- Decimal representation of a value below 1000, most significant digit
first and without leading zeros: exactly the `snprintf` `%d` output for
the byte-sized values `ip_addr_ntop` prints. -/
def toDecimal (n : Nat) : List Char :=
  if n < 10 then [digitChar n]
  else if n < 100 then [digitChar (n / 10), digitChar (n % 10)]
  else [digitChar (n / 100), digitChar (n / 10 % 10), digitChar (n % 10)]

/-- Embedding of `ip_addr_ntop(n, p, size)`: `snprintf("%d.%d.%d.%d")`
over the four bytes of the little-endian `uint32_t` (the size argument is
always sufficient in the repository and truncation is not modelled). -/
def ip_addr_ntop (n : Nat) : String :=
  String.mk (toDecimal (n % 256) ++ '.' :: toDecimal (n / 256 % 256) ++
    '.' :: toDecimal (n / 65536 % 256) ++ '.' :: toDecimal (n / 16777216 % 256))

/-- The 32-bit address value whose little-endian bytes are the four given
octets, i.e. the value `ip_addr_pton` stores for the dotted quad
`a.b.c.d`. -/
def addrOf (a b c d : Nat) : Nat := a + 256 * b + 65536 * c + 16777216 * d

/-! PCB lifecycle pieces needed for the receive-window invariant: the
state a PCB is in right after allocation and right after a passive open,
and the reachability relation generated by the ingress and receive
operations. -/

/-- The all-zero endpoint (`IP_ADDR_ANY`, port 0). -/
def zeroEp : IpEndpoint := { addr := 0, port := 0 }

/-- The PCB as `tcp_pcb_alloc` returns it: the slot bytes are all zero
(static array initialisation / `memset` in `tcp_pcb_release`) and the
state is set to CLOSED. -/
def tcp_pcb_alloc_pcb : TcpPcb :=
  { state := TcpState.CLOSED, localEp := zeroEp, foreignEp := zeroEp,
    snd := { nxt := 0, una := 0, wnd := 0, up := 0, wl1 := 0, wl2 := 0 },
    iss := 0, rcv := { nxt := 0, wnd := 0, up := 0 }, irs := 0,
    mtu := 0, mss := 0, buf := [] }

/-- The PCB after the passive-open setup of `tcp_open_rfc793`: local
endpoint stored, optional foreign endpoint stored, state LISTEN. -/
def tcp_open_passive_pcb (loc : IpEndpoint) (frn? : Option IpEndpoint) : TcpPcb :=
  { tcp_pcb_alloc_pcb with
    localEp := loc, foreignEp := frn?.getD zeroEp, state := TcpState.LISTEN }

/-- The receive-buffer accounting relation of the spec: the free window
plus the number of buffered-but-unconsumed payload bytes is the buffer
size 65535. -/
def rcv_buf_inv (p : TcpPcb) : Prop := p.rcv.wnd + p.buf.length = 65535

/-- PCBs reachable from the SYN-accept of a passive open by ingress
arrivals whose payloads fit the current receive window and by completed
(non-blocking) receives.  This is the execution space on which the
receive-window invariant is claimed. -/
inductive TcpReach : TcpPcb → Prop
  | listen_syn (loc0 : IpEndpoint) (frn? : Option IpEndpoint)
      (seg : TcpSegmentInfo) (flags : Nat) (data : List Nat)
      (loc frn : IpEndpoint) (rand : Nat) (p : TcpPcb) (outs : List OutSegment) :
      tcp_segment_arrives (some (tcp_open_passive_pcb loc0 frn?)) seg flags
        data loc frn rand = (some p, outs) →
      p.state = TcpState.SYN_RECEIVED →
      TcpReach p
  | ingress (p p' : TcpPcb) (seg : TcpSegmentInfo) (flags : Nat)
      (data : List Nat) (loc frn : IpEndpoint) (rand : Nat)
      (outs : List OutSegment) :
      TcpReach p →
      data.length ≤ p.rcv.wnd →
      tcp_segment_arrives (some p) seg flags data loc frn rand =
        (some p', outs) →
      TcpReach p'
  | recv (p p' : TcpPcb) (size n : Nat) (out : List Nat) :
      TcpReach p →
      tcp_receive p size [] = RecvResult.ok n out p' →
      TcpReach p'

/-! Theorems. -/

/-- Flag evaluation: SYN is among SYN|ACK. -/
theorem isset_synack_syn : TCP_FLG_ISSET (TCP_FLG_SYN ||| TCP_FLG_ACK) TCP_FLG_SYN = true := by
  decide

/-- Flag evaluation: SYN is not among a bare ACK. -/
theorem isset_ack_syn : TCP_FLG_ISSET TCP_FLG_ACK TCP_FLG_SYN = false := by
  decide

/-- Flag evaluation: SYN is not among a bare RST. -/
theorem isset_rst_syn : TCP_FLG_ISSET TCP_FLG_RST TCP_FLG_SYN = false := by
  decide

/-- C1: in LISTEN, an RST is dropped with no PCB change; otherwise an ACK
elicits exactly one RST with `seq = seg.ack` and the segment is dropped;
otherwise a SYN is accepted: the endpoints are stored, `rcv.wnd` becomes
the buffer size 65535, `rcv.nxt` becomes `seg.seq + 1`, `irs` becomes
`seg.seq`, `iss` becomes the freshly drawn random value, one SYN|ACK with
`seq = iss`, `ack = seg.seq + 1` is emitted, then `snd.nxt = iss + 1`,
`snd.una = iss` and the state becomes SYN_RECEIVED; any other segment is
dropped with no PCB change. -/
theorem C1_listen_segment_processing (pcb : TcpPcb) (seg : TcpSegmentInfo)
    (flags : Nat) (data : List Nat) (loc frn : IpEndpoint) (rand : Nat)
    (hst : pcb.state = TcpState.LISTEN) (hr : rand < M32) :
    (TCP_FLG_ISSET flags TCP_FLG_RST = true →
      tcp_segment_arrives (some pcb) seg flags data loc frn rand =
        (some pcb, [])) ∧
    (TCP_FLG_ISSET flags TCP_FLG_RST = false →
     TCP_FLG_ISSET flags TCP_FLG_ACK = true →
      tcp_segment_arrives (some pcb) seg flags data loc frn rand =
        (some pcb, [tcp_output_segment seg.ack 0 TCP_FLG_RST 0 [] loc frn])) ∧
    (TCP_FLG_ISSET flags TCP_FLG_RST = false →
     TCP_FLG_ISSET flags TCP_FLG_ACK = false →
     TCP_FLG_ISSET flags TCP_FLG_SYN = true →
      tcp_segment_arrives (some pcb) seg flags data loc frn rand =
        (some { pcb with
            localEp := loc, foreignEp := frn,
            rcv := { pcb.rcv with wnd := 65535, nxt := (seg.seq + 1) % M32 },
            irs := seg.seq, iss := rand,
            snd := { pcb.snd with nxt := (rand + 1) % M32, una := rand },
            state := TcpState.SYN_RECEIVED },
          [{ seq := rand, ack := (seg.seq + 1) % M32,
             flg := TCP_FLG_SYN ||| TCP_FLG_ACK, wnd := 65535, payload := [],
             src := loc, dst := frn }])) ∧
    (TCP_FLG_ISSET flags TCP_FLG_RST = false →
     TCP_FLG_ISSET flags TCP_FLG_ACK = false →
     TCP_FLG_ISSET flags TCP_FLG_SYN = false →
      tcp_segment_arrives (some pcb) seg flags data loc frn rand =
        (some pcb, [])) := by
  have hmod : rand % M32 = rand := Nat.mod_eq_of_lt hr
  refine ⟨?_, ?_, ?_, ?_⟩
  · intro h1
    simp [tcp_segment_arrives, hst, h1]
  · intro h1 h2
    simp [tcp_segment_arrives, hst, h1, h2]
  · intro h1 h2 h3
    simp [tcp_segment_arrives, hst, h1, h2, h3, tcp_output, tcp_output_segment,
      isset_synack_syn, hmod]
  · intro h1 h2 h3
    simp [tcp_segment_arrives, hst, h1, h2, h3]

/-- Concrete LISTEN PCB for the witness of C1. -/
def pcbListenW : TcpPcb := tcp_open_passive_pcb { addr := 0, port := 7 } none

/-- Witness for C1: the theorem applied to a concrete LISTEN PCB and a
concrete SYN segment. -/
theorem C1_witness :
    (pcbListenW.state = TcpState.LISTEN ∧ 42 < M32) ∧
    (TCP_FLG_ISSET 2 TCP_FLG_RST = false →
     TCP_FLG_ISSET 2 TCP_FLG_ACK = false →
     TCP_FLG_ISSET 2 TCP_FLG_SYN = true →
      tcp_segment_arrives (some pcbListenW)
          { seq := 1000, ack := 0, len := 1, wnd := 4096, up := 0 } 2 []
          { addr := 33554442, port := 80 } { addr := 16777226, port := 40000 }
          42 =
        (some { pcbListenW with
            localEp := { addr := 33554442, port := 80 },
            foreignEp := { addr := 16777226, port := 40000 },
            rcv := { pcbListenW.rcv with wnd := 65535, nxt := (1000 + 1) % M32 },
            irs := 1000, iss := 42,
            snd := { pcbListenW.snd with nxt := (42 + 1) % M32, una := 42 },
            state := TcpState.SYN_RECEIVED },
          [{ seq := 42, ack := (1000 + 1) % M32,
             flg := TCP_FLG_SYN ||| TCP_FLG_ACK, wnd := 65535, payload := [],
             src := { addr := 33554442, port := 80 },
             dst := { addr := 16777226, port := 40000 } }])) :=
  ⟨⟨by decide, by decide⟩,
    (C1_listen_segment_processing pcbListenW
      { seq := 1000, ack := 0, len := 1, wnd := 4096, up := 0 } 2 []
      { addr := 33554442, port := 80 } { addr := 16777226, port := 40000 } 42
      (by decide) (by decide)).2.2.1⟩

/-- C2: in SYN_RECEIVED or ESTABLISHED, acceptability is decided exactly
by the four-case test of the spec (empty segment against an empty window:
`seg.seq = rcv.nxt`; empty segment against an open window: `rcv.nxt ≤
seg.seq < rcv.nxt + rcv.wnd`; data against an empty window: never; data
against an open window: head or tail of the segment lies in the window,
all arithmetic wrapping mod 2^32), and every unacceptable segment without
RST elicits exactly one bare ACK carrying `ack = rcv.nxt` and
`window = rcv.wnd` while leaving the PCB, including its receive buffer,
unchanged. -/
theorem C2_acceptability_and_nak (pcb : TcpPcb) (seg : TcpSegmentInfo)
    (flags : Nat) (data : List Nat) (loc frn : IpEndpoint) (rand : Nat)
    (hst : pcb.state = TcpState.SYN_RECEIVED ∨
      pcb.state = TcpState.ESTABLISHED) :
    (seg_acceptable seg pcb.rcv.nxt pcb.rcv.wnd = true ↔
      ((seg.len = 0 ∧ pcb.rcv.wnd = 0 ∧ seg.seq = pcb.rcv.nxt) ∨
       (seg.len = 0 ∧ 0 < pcb.rcv.wnd ∧ pcb.rcv.nxt ≤ seg.seq ∧
         seg.seq < (pcb.rcv.nxt + pcb.rcv.wnd) % M32) ∨
       (0 < seg.len ∧ 0 < pcb.rcv.wnd ∧
         ((pcb.rcv.nxt ≤ seg.seq ∧
            seg.seq < (pcb.rcv.nxt + pcb.rcv.wnd) % M32) ∨
          (pcb.rcv.nxt ≤ (seg.seq + seg.len - 1) % M32 ∧
            (seg.seq + seg.len - 1) % M32 <
              (pcb.rcv.nxt + pcb.rcv.wnd) % M32))))) ∧
    (seg_acceptable seg pcb.rcv.nxt pcb.rcv.wnd = false →
     TCP_FLG_ISSET flags TCP_FLG_RST = false →
      tcp_segment_arrives (some pcb) seg flags data loc frn rand =
        (some pcb,
          [{ seq := pcb.snd.nxt, ack := pcb.rcv.nxt, flg := TCP_FLG_ACK,
             wnd := pcb.rcv.wnd, payload := [], src := pcb.localEp,
             dst := pcb.foreignEp }])) := by
  constructor
  · unfold seg_acceptable
    by_cases hl : seg.len = 0 <;> by_cases hw : pcb.rcv.wnd = 0 <;>
      simp [hl, hw] <;> omega
  · intro hacc hrst
    rcases hst with hst | hst <;>
      simp [tcp_segment_arrives, hst, tcp_arrives_rest, hacc, hrst,
        tcp_output, tcp_output_segment, isset_ack_syn]

/-- Concrete ESTABLISHED PCB for the witness of C2: `rcv.nxt = 1001`,
`rcv.wnd = 65535` (spec scenario 4). -/
def pcbEstW : TcpPcb :=
  { state := TcpState.ESTABLISHED,
    localEp := { addr := 33554442, port := 80 },
    foreignEp := { addr := 16777226, port := 40000 },
    snd := { nxt := 200, una := 200, wnd := 4096, up := 0, wl1 := 0, wl2 := 0 },
    iss := 100, rcv := { nxt := 1001, wnd := 65535, up := 0 }, irs := 1000,
    mtu := 0, mss := 0, buf := [] }

/-- Witness for C2: the theorem applied to the concrete ESTABLISHED PCB
and the out-of-window segment `ACK seq=500 len=0`, yielding the bare ACK
with `ack = 1001` and an unchanged PCB. -/
theorem C2_witness :
    (pcbEstW.state = TcpState.SYN_RECEIVED ∨
      pcbEstW.state = TcpState.ESTABLISHED) ∧
    (seg_acceptable { seq := 500, ack := 200, len := 0, wnd := 4096, up := 0 }
        pcbEstW.rcv.nxt pcbEstW.rcv.wnd = false →
     TCP_FLG_ISSET 16 TCP_FLG_RST = false →
      tcp_segment_arrives (some pcbEstW)
          { seq := 500, ack := 200, len := 0, wnd := 4096, up := 0 } 16 []
          { addr := 33554442, port := 80 } { addr := 16777226, port := 40000 }
          0 =
        (some pcbEstW,
          [{ seq := pcbEstW.snd.nxt, ack := pcbEstW.rcv.nxt,
             flg := TCP_FLG_ACK, wnd := pcbEstW.rcv.wnd, payload := [],
             src := pcbEstW.localEp, dst := pcbEstW.foreignEp }])) :=
  ⟨Or.inr (by decide),
    (C2_acceptability_and_nak pcbEstW
      { seq := 500, ack := 200, len := 0, wnd := 4096, up := 0 } 16 []
      { addr := 33554442, port := 80 } { addr := 16777226, port := 40000 } 0
      (Or.inr (by decide))).2⟩

/-- Concrete ESTABLISHED PCB whose send window spans the 2^32 wraparound:
`snd.una = 4294967000` (just below 2^32) and `snd.nxt = 100` (wrapped). -/
def pcbWrapW : TcpPcb :=
  { state := TcpState.ESTABLISHED,
    localEp := { addr := 33554442, port := 80 },
    foreignEp := { addr := 16777226, port := 40000 },
    snd := { nxt := 100, una := 4294967000, wnd := 4096, up := 0,
             wl1 := 0, wl2 := 0 },
    iss := 4294966000, rcv := { nxt := 500, wnd := 65535, up := 0 },
    irs := 499, mtu := 0, mss := 0, buf := [] }

/-- C3 (exhibit of the divergence): the segment `ACK seq=500 ack=50`
acknowledges new data of `pcbWrapW` in 32-bit modular sequence-space order
(`snd.una < 50 ≤ snd.nxt` holds under the wrapping comparison the spec
prescribes), yet `tcp_segment_arrives` — which compares the raw values
with native `<` — classifies it as a duplicate and leaves `snd.una`
untouched, returning the PCB unchanged with no output.  The comparisons in
the code are therefore not evaluated in modular sequence space and give
the wrong outcome on intervals spanning the wraparound. -/
theorem C3_native_seq_compare_bug :
    seq32_lt pcbWrapW.snd.una 50 = true ∧
    seq32_le 50 pcbWrapW.snd.nxt = true ∧
    decide (pcbWrapW.snd.una < 50) = false ∧
    tcp_segment_arrives (some pcbWrapW)
        { seq := 500, ack := 50, len := 0, wnd := 4096, up := 0 } 16 []
        { addr := 33554442, port := 80 } { addr := 16777226, port := 40000 }
        0 =
      (some pcbWrapW, []) := by
  refine ⟨by decide, by decide, by decide, ?_⟩
  simp [tcp_segment_arrives, pcbWrapW, tcp_arrives_rest, seg_acceptable,
    tcp_est_ack, tcp_step7, M32, TCP_FLG_ISSET]

/-- C4: when PCB selection finds no PCB or a CLOSED one, an incoming RST
is dropped with no emission; otherwise a segment without ACK elicits
exactly one RST|ACK with `seq = 0`, `ack = seg.seq + seg.len`; otherwise
exactly one RST with `seq = seg.ack`; in all cases no PCB is created or
modified. -/
theorem C4_no_pcb_reset_generation (pcb? : Option TcpPcb)
    (seg : TcpSegmentInfo) (flags : Nat) (data : List Nat)
    (loc frn : IpEndpoint) (rand : Nat)
    (h : pcb? = none ∨ ∃ p, pcb? = some p ∧ p.state = TcpState.CLOSED) :
    (TCP_FLG_ISSET flags TCP_FLG_RST = true →
      tcp_segment_arrives pcb? seg flags data loc frn rand = (pcb?, [])) ∧
    (TCP_FLG_ISSET flags TCP_FLG_RST = false →
     TCP_FLG_ISSET flags TCP_FLG_ACK = false →
      tcp_segment_arrives pcb? seg flags data loc frn rand =
        (pcb?, [tcp_output_segment 0 ((seg.seq + seg.len) % M32)
          (TCP_FLG_RST ||| TCP_FLG_ACK) 0 [] loc frn])) ∧
    (TCP_FLG_ISSET flags TCP_FLG_RST = false →
     TCP_FLG_ISSET flags TCP_FLG_ACK = true →
      tcp_segment_arrives pcb? seg flags data loc frn rand =
        (pcb?, [tcp_output_segment seg.ack 0 TCP_FLG_RST 0 [] loc frn])) := by
  rcases h with h | ⟨p, hp, hst⟩ <;>
    [subst h; (subst hp)] <;>
    refine ⟨fun h1 => ?_, fun h1 h2 => ?_, fun h1 h2 => ?_⟩ <;>
      simp [tcp_segment_arrives, closed_state_resp, h1, *]

/-- Witness for C4: the theorem applied to an empty selection and the
stray `SYN seq=9` of spec scenario 5, producing `RST|ACK seq=0 ack=10`. -/
theorem C4_witness :
    ((none : Option TcpPcb) = none ∨
      ∃ p, (none : Option TcpPcb) = some p ∧ p.state = TcpState.CLOSED) ∧
    (TCP_FLG_ISSET 2 TCP_FLG_RST = false →
     TCP_FLG_ISSET 2 TCP_FLG_ACK = false →
      tcp_segment_arrives none
          { seq := 9, ack := 0, len := 1, wnd := 4096, up := 0 } 2 []
          { addr := 33554442, port := 80 } { addr := 16777226, port := 40000 }
          0 =
        (none, [tcp_output_segment 0 ((9 + 1) % M32)
          (TCP_FLG_RST ||| TCP_FLG_ACK) 0 []
          { addr := 33554442, port := 80 }
          { addr := 16777226, port := 40000 }])) :=
  ⟨Or.inl rfl,
    (C4_no_pcb_reset_generation none
      { seq := 9, ack := 0, len := 1, wnd := 4096, up := 0 } 2 []
      { addr := 33554442, port := 80 } { addr := 16777226, port := 40000 } 0
      (Or.inl rfl)).2.1⟩

/-- C5: for a PCB in ESTABLISHED state, `tcp_receive` with
`remain = 65535 - rcv.wnd > 0` copies exactly `min size remain` bytes from
the head of the buffer, drops them from the front of the buffer, increases
`rcv.wnd` by the copied amount and returns that amount; with `remain = 0`
it sleeps and, when woken, retries on the PCB as it then stands; a sleep
ended by the external interrupt makes the call fail with the interrupted
result carrying the PCB unchanged. -/
theorem C5_receive_behavior (pcb : TcpPcb) (size : Nat)
    (hst : pcb.state = TcpState.ESTABLISHED) :
    (0 < 65535 - pcb.rcv.wnd →
      ∀ sleeps, tcp_receive pcb size sleeps =
        RecvResult.ok (min size (65535 - pcb.rcv.wnd))
          (pcb.buf.take (min size (65535 - pcb.rcv.wnd)))
          { pcb with
            buf := pcb.buf.drop (min size (65535 - pcb.rcv.wnd)),
            rcv := { pcb.rcv with
              wnd := pcb.rcv.wnd + min size (65535 - pcb.rcv.wnd) } }) ∧
    (65535 - pcb.rcv.wnd = 0 →
      ∀ p' rest, tcp_receive pcb size (SleepOutcome.woken p' :: rest) =
        tcp_receive p' size rest) ∧
    (65535 - pcb.rcv.wnd = 0 →
      ∀ rest, tcp_receive pcb size (SleepOutcome.interrupted :: rest) =
        RecvResult.intr pcb) := by
  refine ⟨fun hr sleeps => ?_, fun hr p' rest => ?_, fun hr rest => ?_⟩
  · have hmod : (pcb.rcv.wnd + min size (65535 - pcb.rcv.wnd)) % 65536 =
        pcb.rcv.wnd + min size (65535 - pcb.rcv.wnd) := by
      apply Nat.mod_eq_of_lt
      omega
    rw [tcp_receive.eq_def]
    simp [hst, Nat.ne_of_gt hr, hmod]
  · rw [tcp_receive.eq_def]
    simp [hst, hr]
  · rw [tcp_receive.eq_def]
    simp [hst, hr]

/-- Concrete ESTABLISHED PCB with five buffered bytes for the witness of
C5 (spec scenario 2 after the five bytes of "hello" arrived). -/
def pcbRecvW : TcpPcb :=
  { pcbEstW with
    rcv := { nxt := 1006, wnd := 65530, up := 0 },
    buf := [104, 101, 108, 108, 111] }

/-- Witness for C5: the theorem applied to the concrete PCB; a receive of
up to five bytes returns the five buffered bytes and restores
`rcv.wnd = 65535`. -/
theorem C5_witness :
    pcbRecvW.state = TcpState.ESTABLISHED ∧
    (0 < 65535 - pcbRecvW.rcv.wnd →
      ∀ sleeps, tcp_receive pcbRecvW 5 sleeps =
        RecvResult.ok (min 5 (65535 - pcbRecvW.rcv.wnd))
          (pcbRecvW.buf.take (min 5 (65535 - pcbRecvW.rcv.wnd)))
          { pcbRecvW with
            buf := pcbRecvW.buf.drop (min 5 (65535 - pcbRecvW.rcv.wnd)),
            rcv := { pcbRecvW.rcv with
              wnd := pcbRecvW.rcv.wnd + min 5 (65535 - pcbRecvW.rcv.wnd) } }) :=
  ⟨by decide, (C5_receive_behavior pcbRecvW 5 (by decide)).1⟩

/-- Preservation of the receive-buffer accounting by the segment-text
step: it leaves the state unchanged and, when the payload fits the current
window, keeps `rcv.wnd` plus the buffered byte count at 65535. -/
theorem tcp_step7_pres (pcb : TcpPcb) (seg : TcpSegmentInfo)
    (data : List Nat) (h1 : rcv_buf_inv pcb)
    (h2 : data.length ≤ pcb.rcv.wnd) :
    (tcp_step7 pcb seg data).1.state = pcb.state ∧
    rcv_buf_inv (tcp_step7 pcb seg data).1 := by
  unfold rcv_buf_inv at h1 ⊢
  unfold tcp_step7
  split
  · refine ⟨rfl, ?_⟩
    simp only [List.length_append]
    omega
  · exact ⟨rfl, h1⟩

/-- Preservation of the receive-buffer accounting by the ESTABLISHED ACK
processing: only `snd` is updated before the segment-text step. -/
theorem tcp_est_ack_pres (pcb : TcpPcb) (seg : TcpSegmentInfo)
    (data : List Nat) (h1 : rcv_buf_inv pcb)
    (h2 : data.length ≤ pcb.rcv.wnd) :
    (tcp_est_ack pcb seg data).1.state = pcb.state ∧
    rcv_buf_inv (tcp_est_ack pcb seg data).1 := by
  unfold tcp_est_ack
  split
  · exact tcp_step7_pres _ seg data h1 h2
  · split
    · exact tcp_step7_pres _ seg data h1 h2
    · split
      · exact ⟨rfl, h1⟩
      · exact tcp_step7_pres _ seg data h1 h2

/-- Preservation of the receive-buffer accounting by the post-LISTEN part
of `tcp_segment_arrives`, for a PCB in SYN_RECEIVED or ESTABLISHED. -/
theorem tcp_arrives_rest_pres (pcb : TcpPcb) (seg : TcpSegmentInfo)
    (flags : Nat) (data : List Nat) (loc frn : IpEndpoint)
    (hst : pcb.state = TcpState.SYN_RECEIVED ∨
      pcb.state = TcpState.ESTABLISHED)
    (h1 : rcv_buf_inv pcb) (h2 : data.length ≤ pcb.rcv.wnd) :
    ((tcp_arrives_rest pcb seg flags data loc frn).1.state =
        TcpState.SYN_RECEIVED ∨
     (tcp_arrives_rest pcb seg flags data loc frn).1.state =
        TcpState.ESTABLISHED) ∧
    rcv_buf_inv (tcp_arrives_rest pcb seg flags data loc frn).1 := by
  unfold tcp_arrives_rest
  split
  · exact ⟨hst, h1⟩
  · split
    · exact ⟨hst, h1⟩
    · split
      · split
        · have h := tcp_est_ack_pres
            { pcb with state := TcpState.ESTABLISHED } seg data h1 h2
          exact ⟨Or.inr h.1, h.2⟩
        · exact ⟨hst, h1⟩
      · next hnsr =>
          split
          · next hest =>
              have h := tcp_est_ack_pres pcb seg data h1 h2
              exact ⟨Or.inr (h.1.trans hest), h.2⟩
          · next hnest =>
              rcases hst with h | h
              · exact absurd h hnsr
              · exact absurd h hnest

/-- Preservation of the receive-buffer accounting by a full
`tcp_segment_arrives` arrival on a SYN_RECEIVED or ESTABLISHED PCB whose
payload fits the current window. -/
theorem tcp_arrives_pres (pcb p' : TcpPcb) (seg : TcpSegmentInfo)
    (flags : Nat) (data : List Nat) (loc frn : IpEndpoint) (rand : Nat)
    (outs : List OutSegment)
    (hst : pcb.state = TcpState.SYN_RECEIVED ∨
      pcb.state = TcpState.ESTABLISHED)
    (h1 : rcv_buf_inv pcb) (h2 : data.length ≤ pcb.rcv.wnd)
    (he : tcp_segment_arrives (some pcb) seg flags data loc frn rand =
      (some p', outs)) :
    (p'.state = TcpState.SYN_RECEIVED ∨
      p'.state = TcpState.ESTABLISHED) ∧ rcv_buf_inv p' := by
  have hne1 : ¬ pcb.state = TcpState.CLOSED := by
    rcases hst with h | h <;> simp [h]
  have hne2 : ¬ pcb.state = TcpState.LISTEN := by
    rcases hst with h | h <;> simp [h]
  have hne3 : ¬ pcb.state = TcpState.SYN_SENT := by
    rcases hst with h | h <;> simp [h]
  simp only [tcp_segment_arrives, hne1, hne2, hne3, if_false,
    Prod.mk.injEq, Option.some.injEq] at he
  obtain ⟨hp, -⟩ := he
  rw [← hp]
  exact tcp_arrives_rest_pres pcb seg flags data loc frn hst h1 h2

/-- The SYN-accept of a passive open establishes the receive-buffer
accounting: when an arrival at a freshly opened LISTEN PCB leaves a PCB in
SYN_RECEIVED state, that PCB has `rcv.wnd = 65535` and an empty buffer. -/
theorem tcp_listen_accept_pres (pcb0 p' : TcpPcb)
    (hl : pcb0.state = TcpState.LISTEN) (hbuf : pcb0.buf = [])
    (seg : TcpSegmentInfo) (flags : Nat) (data : List Nat)
    (loc frn : IpEndpoint) (rand : Nat) (outs : List OutSegment)
    (he : tcp_segment_arrives (some pcb0) seg flags data loc frn rand =
      (some p', outs))
    (hp : p'.state = TcpState.SYN_RECEIVED) : rcv_buf_inv p' := by
  cases hR : TCP_FLG_ISSET flags TCP_FLG_RST
  · cases hA : TCP_FLG_ISSET flags TCP_FLG_ACK
    · cases hS : TCP_FLG_ISSET flags TCP_FLG_SYN
      · simp [tcp_segment_arrives, hl, hR, hA, hS] at he
        obtain ⟨h1', -⟩ := he
        rw [← h1'] at hp
        rw [hl] at hp
        exact absurd hp (by decide)
      · simp [tcp_segment_arrives, hl, hR, hA, hS] at he
        obtain ⟨h1', -⟩ := he
        rw [← h1']
        unfold rcv_buf_inv
        simp [hbuf]
    · simp [tcp_segment_arrives, hl, hR, hA] at he
      obtain ⟨h1', -⟩ := he
      rw [← h1'] at hp
      rw [hl] at hp
      exact absurd hp (by decide)
  · simp [tcp_segment_arrives, hl, hR] at he
    obtain ⟨h1', -⟩ := he
    rw [← h1'] at hp
    rw [hl] at hp
    exact absurd hp (by decide)

/-- Preservation of the receive-buffer accounting by a completed
`tcp_receive`. -/
theorem tcp_recv_pres (p p' : TcpPcb) (size n : Nat) (out : List Nat)
    (h1 : rcv_buf_inv p)
    (he : tcp_receive p size [] = RecvResult.ok n out p') :
    p'.state = TcpState.ESTABLISHED ∧ rcv_buf_inv p' := by
  unfold rcv_buf_inv at h1 ⊢
  rw [tcp_receive.eq_def] at he
  by_cases hst : p.state = TcpState.ESTABLISHED
  · by_cases hr : 65535 - p.rcv.wnd = 0
    · simp [hst, hr] at he
    · simp [hst, hr] at he
      obtain ⟨-, -, h3'⟩ := he
      rw [← h3']
      refine ⟨rfl, ?_⟩
      simp
      omega
  · simp [hst] at he

/-- C8 counterexample: a freshly allocated PCB is in CLOSED state (hence
not FREE) with `rcv.wnd = 0` and an empty buffer, so the claimed invariant
`rcv.wnd + buffered-bytes = 65535` fails there, and likewise for the
LISTEN PCB a passive open creates. -/
theorem C8_cex_alloc_closed :
    tcp_pcb_alloc_pcb.state ≠ TcpState.FREE ∧
    ¬ rcv_buf_inv tcp_pcb_alloc_pcb ∧
    (tcp_open_passive_pcb zeroEp none).state ≠ TcpState.FREE ∧
    ¬ rcv_buf_inv (tcp_open_passive_pcb zeroEp none) := by
  refine ⟨by decide, ?_, by decide, ?_⟩ <;>
    simp [rcv_buf_inv, tcp_pcb_alloc_pcb, tcp_open_passive_pcb, zeroEp]

/-- C8 (amended): every PCB reached from the SYN-accept of a passive open
— which sets `rcv.wnd` to the buffer size 65535 with an empty buffer — by
ingress arrivals whose payloads fit the current receive window and by
completed receives is in SYN_RECEIVED or ESTABLISHED state and satisfies
`rcv.wnd + buffered-unconsumed-bytes = 65535`. -/
theorem C8_rcv_window_invariant (p : TcpPcb) (h : TcpReach p) :
    (p.state = TcpState.SYN_RECEIVED ∨ p.state = TcpState.ESTABLISHED) ∧
    rcv_buf_inv p := by
  induction h with
  | listen_syn loc0 frn? seg flags data loc frn rand p outs he hp =>
    exact ⟨Or.inl hp,
      tcp_listen_accept_pres (tcp_open_passive_pcb loc0 frn?) p rfl rfl seg
        flags data loc frn rand outs he hp⟩
  | ingress p p' seg flags data loc frn rand outs hre hlen he ih =>
    exact tcp_arrives_pres p p' seg flags data loc frn rand outs ih.1 ih.2
      hlen he
  | recv p p' size n out hre he ih =>
    have h := tcp_recv_pres p p' size n out ih.2 he
    exact ⟨Or.inr h.1, h.2⟩

/-- The PCB left behind by the SYN-accept of the witness handshake
(`SYN seq=1000` arriving at a LISTEN PCB on port 7, with `random()`
returning 42). -/
def pcbSynW : TcpPcb :=
  { state := TcpState.SYN_RECEIVED,
    localEp := { addr := 33554442, port := 80 },
    foreignEp := { addr := 16777226, port := 40000 },
    snd := { nxt := 43, una := 42, wnd := 0, up := 0, wl1 := 0, wl2 := 0 },
    iss := 42, rcv := { nxt := 1001, wnd := 65535, up := 0 }, irs := 1000,
    mtu := 0, mss := 0, buf := [] }

/-- Witness for C8: the SYN-accepted PCB is reachable and the theorem
yields the invariant for it. -/
theorem C8_witness :
    TcpReach pcbSynW ∧
    ((pcbSynW.state = TcpState.SYN_RECEIVED ∨
      pcbSynW.state = TcpState.ESTABLISHED) ∧ rcv_buf_inv pcbSynW) :=
  have hreach : TcpReach pcbSynW :=
    TcpReach.listen_syn { addr := 0, port := 7 } none
      { seq := 1000, ack := 0, len := 1, wnd := 4096, up := 0 } 2 []
      { addr := 33554442, port := 80 } { addr := 16777226, port := 40000 } 42
      pcbSynW
      [{ seq := 42, ack := 1001, flg := 18, wnd := 65535, payload := [],
         src := { addr := 33554442, port := 80 },
         dst := { addr := 16777226, port := 40000 } }]
      (by decide) (by decide)
  ⟨hreach, C8_rcv_window_invariant pcbSynW hreach⟩

/-- A 20-byte IPv4 header with `vhl = 0x4f` (version 4, header length
nibble 15, so a declared header length of 60 bytes), `total = 20`,
`ttl = 64`, `protocol = 6`, a valid header checksum, `src = 10.0.0.1` and
`dst = 10.0.0.2`. -/
def ipHdrHlen : List Nat :=
  [79, 0, 0, 20, 0, 0, 0, 0, 64, 6, 92, 226, 10, 0, 0, 1, 10, 0, 0, 2]

/-- The interface `10.0.0.2/255.255.255.0` of the spec's scenarios. -/
def ifaceW : IpIface := ip_iface_alloc 33554442 16777215

/-- C6 (exhibit of the header-length bug): the 20-byte datagram whose
`vhl` byte declares a 60-byte header is fully accepted by `ip_input`, even
though the spec-prescribed derived header length `(vhl & 0x0f) << 2 = 60`
exceeds the 20-byte input, which must therefore be rejected.  The source
expression `ntoh16(hdr->vhl) & 0x0f * 4` masks the byte-swapped value with
`0x0f * 4 = 60` and in fact evaluates to 0 for every byte, so the
shorter-than-header check can never fire. -/
theorem C6_ip_hlen_bug :
    ip_input ipHdrHlen ifaceW = IpVerdict.accept ∧
    ip_hlen_spec 79 = 60 ∧
    ipHdrHlen.length = 20 ∧
    ipHdrHlen.length < ip_hlen_spec (ipHdrHlen.getD 0 0) ∧
    (∀ vhl, vhl < 256 → ntoh16 vhl &&& 60 = 0) := by
  refine ⟨by decide, by decide, by decide, by decide, by decide⟩

/-- The interface `10.0.0.2/255.255.0.0`, whose stored directed-broadcast
address is `10.0.255.255`. -/
def ifaceW16 : IpIface := ip_iface_alloc 33554442 65535

/-- A valid 20-byte IPv4 datagram addressed to `10.0.255.255`, the
directed broadcast of `ifaceW16`. -/
def ipHdrToBcast : List Nat :=
  [69, 0, 0, 20, 0, 0, 0, 0, 64, 6, 102, 228, 10, 0, 0, 1, 10, 0, 255, 255]

/-- A valid 20-byte IPv4 datagram addressed to `10.0.0.255`, which is
`unicast | 0xff000000` but not the unicast, limited-broadcast or
directed-broadcast address of `ifaceW16`. -/
def ipHdrToFF : List Nat :=
  [69, 0, 0, 20, 0, 0, 0, 0, 64, 6, 101, 229, 10, 0, 0, 1, 10, 0, 0, 255]

/-- C7 (exhibit of the directed-broadcast bug): on the /16 interface,
`ip_input` rejects the datagram addressed to the interface's stored
directed-broadcast address `10.0.255.255` and accepts the one addressed to
`10.0.0.255 = unicast | 0xff000000`, an address that is neither the
unicast, nor 255.255.255.255, nor the stored broadcast — the opposite of
the claimed acceptance condition in both directions. -/
theorem C7_directed_broadcast_bug :
    read32 ipHdrToBcast 16 = ifaceW16.broadcast ∧
    ip_input ipHdrToBcast ifaceW16 = IpVerdict.badDst ∧
    ip_input ipHdrToFF ifaceW16 = IpVerdict.accept ∧
    read32 ipHdrToFF 16 ≠ ifaceW16.unicast ∧
    read32 ipHdrToFF 16 ≠ 4294967295 ∧
    read32 ipHdrToFF 16 ≠ ifaceW16.broadcast := by
  refine ⟨by decide, by decide, by decide, by decide, by decide, by decide⟩

/-- A 20-byte TCP segment (ports 80 and 7, `seq = 1000`, flags `ACK`,
window 4096) whose data-offset byte is `0xf0`, declaring a 60-byte header;
its checksum is valid against the pseudo-header for
`10.0.0.1 -> 10.0.0.2`. -/
def tcpSegOff15 : List Nat :=
  [0, 80, 0, 7, 0, 0, 3, 232, 0, 0, 0, 0, 240, 16, 16, 0, 231, 146, 0, 0]

/-- The same 20-byte TCP segment with the normal data-offset byte `0x50`
(20-byte header) and its accordingly valid checksum. -/
def tcpSegOff5 : List Nat :=
  [0, 80, 0, 7, 0, 0, 3, 232, 0, 0, 0, 0, 80, 16, 16, 0, 135, 147, 0, 0]

/-- The arguments `tcp_input` produces for `tcpSegOff15`: header length 60
and a payload length wrapped to 65496. -/
def tcpCallOff15 : TcpInputCall :=
  { seg := { seq := 1000, ack := 0, len := 65496, wnd := 4096, up := 0 },
    flags := 16, hlen := 60, payload := [],
    localEp := { addr := 33554442, port := 1792 },
    foreignEp := { addr := 16777226, port := 20480 } }

/-- C10 counterexample: the 20-byte segment with data-offset nibble 15
passes `tcp_input`'s minimum-length check and checksum verification and is
delivered, yet the derived header length is 60 > 20 and the `uint16`
payload length wraps to 65496 instead of being non-negative — refuting the
claimed bound `hlen ≤ length` at the `tcp_segment_arrives` call. -/
theorem C10_cex_offset_overrun :
    tcp_input tcpSegOff15 16777226 33554442 = some tcpCallOff15 ∧
    tcpCallOff15.hlen = 60 ∧ tcpSegOff15.length = 20 ∧
    tcpSegOff15.length < tcpCallOff15.hlen ∧
    tcpCallOff15.seg.len = 65496 := by
  refine ⟨by decide, by decide, by decide, by decide, by decide⟩

/-- C10 (amended): `tcp_input` enforces no bound tying the data-offset
field to the buffer length; the bound `hlen ≤ length` holds exactly when
the data-offset nibble is at most 5 — in particular for the plain 20-byte
headers this stack itself emits — because then `hlen ≤ 20` while every
delivered buffer has length at least 20. -/
theorem C10_hlen_bound (data : List Nat) (src dst : Nat)
    (call : TcpInputCall)
    (he : tcp_input data src dst = some call)
    (hoff : (data.getD 12 0) >>> 4 ≤ 5) : call.hlen ≤ data.length := by
  unfold tcp_input at he
  by_cases h1 : data.length < 20
  · simp [h1] at he
  · by_cases h2 : cksum16 data (65535 - cksum16 (pseudoBytes src dst data.length) 0) ≠ 0
    · simp [h1, h2] at he
    · by_cases h3 : src = 4294967295 ∨ dst = 4294967295
      · simp [h1, h2, h3] at he
      · simp only [h1, h2, h3, if_false, reduceIte, Option.some.injEq] at he
        have hh : call.hlen = ((data.getD 12 0) >>> 4) <<< 2 := by
          rw [← he]
        rw [hh]
        have := Nat.shiftLeft_eq ((data.getD 12 0) >>> 4) 2
        omega

/-- The arguments `tcp_input` produces for `tcpSegOff5`: the ordinary
20-byte header. -/
def tcpCallOff5 : TcpInputCall :=
  { seg := { seq := 1000, ack := 0, len := 0, wnd := 4096, up := 0 },
    flags := 16, hlen := 20, payload := [],
    localEp := { addr := 33554442, port := 1792 },
    foreignEp := { addr := 16777226, port := 20480 } }

/-- Witness for C10: the well-formed segment with data-offset nibble 5 is
parsed and its header length 20 is within the 20-byte buffer. -/
theorem C10_witness :
    tcp_input tcpSegOff5 16777226 33554442 = some tcpCallOff5 ∧
    (tcpSegOff5.getD 12 0) >>> 4 ≤ 5 ∧ tcpCallOff5.hlen ≤ tcpSegOff5.length :=
  ⟨by decide, by decide,
    C10_hlen_bound tcpSegOff5 16777226 33554442 tcpCallOff5 (by decide)
      (by decide)⟩

/-- Facts about decimal digit characters used by the codec proofs. -/
theorem digitChar_facts : ∀ d < 10, isDigitC (digitChar d) = true ∧
    digitVal (digitChar d) = d ∧ isSpaceC (digitChar d) = false ∧
    digitChar d ≠ '-' ∧ digitChar d ≠ '+' := by decide

/-- The digit scanner stops immediately on a non-digit head. -/
theorem grabDigits_stop (rest : List Char) (acc : Nat)
    (h : ∀ ch, rest.head? = some ch → isDigitC ch = false) :
    grabDigits rest acc = (acc, rest) := by
  cases rest with
  | nil => rfl
  | cons ch cs =>
    unfold grabDigits
    rw [h ch rfl]
    simp

/-- The digit scanner reads back the decimal rendering of a value below
1000 and leaves exactly the non-digit remainder. -/
theorem grabDigits_toDecimal (n : Nat) (hn : n < 1000) (rest : List Char)
    (h : ∀ ch, rest.head? = some ch → isDigitC ch = false) :
    grabDigits (toDecimal n ++ rest) 0 = (n, rest) := by
  unfold toDecimal
  by_cases h1 : n < 10
  · simp only [h1, if_true, List.cons_append, List.nil_append]
    unfold grabDigits
    rw [(digitChar_facts n h1).1, (digitChar_facts n h1).2.1]
    simp [grabDigits_stop rest _ h]
  · by_cases h2 : n < 100
    · simp only [h1, h2, if_true, if_false, reduceIte, List.cons_append,
        List.nil_append]
      unfold grabDigits
      rw [(digitChar_facts (n / 10) (by omega)).1,
        (digitChar_facts (n / 10) (by omega)).2.1]
      simp only []
      unfold grabDigits
      rw [(digitChar_facts (n % 10) (by omega)).1,
        (digitChar_facts (n % 10) (by omega)).2.1]
      simp only []
      rw [grabDigits_stop rest _ h]
      have hv : (0 * 10 + n / 10) * 10 + n % 10 = n := by omega
      rw [hv]
      simp
    · simp only [h1, h2, if_false, reduceIte, List.cons_append,
        List.nil_append]
      unfold grabDigits
      rw [(digitChar_facts (n / 100) (by omega)).1,
        (digitChar_facts (n / 100) (by omega)).2.1]
      simp only []
      unfold grabDigits
      rw [(digitChar_facts (n / 10 % 10) (by omega)).1,
        (digitChar_facts (n / 10 % 10) (by omega)).2.1]
      simp only []
      unfold grabDigits
      rw [(digitChar_facts (n % 10) (by omega)).1,
        (digitChar_facts (n % 10) (by omega)).2.1]
      simp only []
      rw [grabDigits_stop rest _ h]
      have hv : ((0 * 10 + n / 100) * 10 + n / 10 % 10) * 10 + n % 10 = n := by
        omega
      rw [hv]
      simp

/-- The decimal rendering starts with a digit character. -/
theorem toDecimal_head (n : Nat) (hn : n < 1000) :
    ∃ d cs, d < 10 ∧ toDecimal n = digitChar d :: cs := by
  unfold toDecimal
  by_cases h1 : n < 10
  · exact ⟨n, [], h1, by simp [h1]⟩
  · by_cases h2 : n < 100
    · exact ⟨n / 10, [digitChar (n % 10)], by omega, by simp [h1, h2]⟩
    · exact ⟨n / 100, [digitChar (n / 10 % 10), digitChar (n % 10)],
        by omega, by simp [h1, h2]⟩

/-- The modelled `strtol` parses the decimal rendering of a value below
1000 followed by a non-digit remainder back to that value. -/
theorem strtol10_toDecimal (n : Nat) (hn : n < 1000) (rest : List Char)
    (h : ∀ ch, rest.head? = some ch → isDigitC ch = false) :
    strtol10 (toDecimal n ++ rest) = some ((n : Int), rest) := by
  obtain ⟨d, cs, hd, hds⟩ := toDecimal_head n hn
  have f := digitChar_facts d hd
  rw [strtol10, hds]
  simp only [List.cons_append]
  unfold dropSpaces
  rw [f.2.2.1]
  simp only [Bool.false_eq_true, if_false, reduceIte, List.head?_cons,
    Option.some.injEq]
  simp only [f.2.2.2.1, f.2.2.2.2, or_self, if_false, reduceIte]
  rw [f.1]
  simp only [if_true, reduceIte]
  rw [← List.cons_append, ← hds, grabDigits_toDecimal n hn rest h]
  simp

/-- A dot-headed remainder does not start with a digit. -/
theorem dot_head_not_digit : ∀ (l : List Char) ch,
    ('.' :: l).head? = some ch → isDigitC ch = false := by
  intro l ch hch
  simp only [List.head?_cons, Option.some.injEq] at hch
  rw [← hch]
  decide

/-- An empty remainder does not start with a digit. -/
theorem nil_head_not_digit : ∀ ch,
    ([] : List Char).head? = some ch → isDigitC ch = false := by
  intro ch hch
  simp at hch

/-- The component loop of `ip_addr_pton` parses the canonical dotted quad
of four octets to exactly those octets. -/
theorem pton_comps_quad (a b c d : Nat) (ha : a < 256) (hb : b < 256)
    (hc : c < 256) (hd : d < 256) :
    pton_comps 4 (toDecimal a ++ '.' ::
      (toDecimal b ++ '.' :: (toDecimal c ++ '.' :: toDecimal d))) =
      some [a, b, c, d] := by
  have e4 : pton_comps 4 (toDecimal a ++ '.' ::
      (toDecimal b ++ '.' :: (toDecimal c ++ '.' :: toDecimal d))) =
      (pton_comps 3 (toDecimal b ++ '.' ::
        (toDecimal c ++ '.' :: toDecimal d))).map (fun bs => a :: bs) := by
    rw [pton_comps, strtol10_toDecimal a (by omega) _ (dot_head_not_digit _)]
    simp only []
    rw [if_neg (by omega), if_neg (by omega)]
    simp
  rw [e4]
  have e3 : pton_comps 3 (toDecimal b ++ '.' ::
      (toDecimal c ++ '.' :: toDecimal d)) =
      (pton_comps 2 (toDecimal c ++ '.' :: toDecimal d)).map
        (fun bs => b :: bs) := by
    rw [pton_comps, strtol10_toDecimal b (by omega) _ (dot_head_not_digit _)]
    simp only []
    rw [if_neg (by omega), if_neg (by omega)]
    simp
  rw [e3]
  have e2 : pton_comps 2 (toDecimal c ++ '.' :: toDecimal d) =
      (pton_comps 1 (toDecimal d)).map (fun bs => c :: bs) := by
    rw [pton_comps, strtol10_toDecimal c (by omega) _ (dot_head_not_digit _)]
    simp only []
    rw [if_neg (by omega), if_neg (by omega)]
    simp
  rw [e2]
  have e1 : pton_comps 1 (toDecimal d) = some [d] := by
    have : toDecimal d ++ ([] : List Char) = toDecimal d := by simp
    rw [pton_comps, ← this, strtol10_toDecimal d (by omega) _ nil_head_not_digit]
    simp only []
    rw [if_neg (by omega)]
    simp
  rw [e1]
  simp

/-- C9 (amended): for every canonical dotted quad — the `ip_addr_ntop`
rendering of four octets — `ip_addr_pton` parses it back to the same
address, so `unparse (parse s) = s`; but `ip_addr_pton` does not reject
every non-canonical form: following `strtol` it also accepts leading
whitespace, signed zero components and leading zeros, while octets above
255, negative values, missing or extra components and non-numeric garbage
are rejected. -/
theorem C9_pton_ntop_roundtrip (a b c d : Nat) (ha : a < 256) (hb : b < 256)
    (hc : c < 256) (hd : d < 256) :
    ip_addr_pton (ip_addr_ntop (addrOf a b c d)) = some (addrOf a b c d) ∧
    (ip_addr_pton (ip_addr_ntop (addrOf a b c d))).map ip_addr_ntop =
      some (ip_addr_ntop (addrOf a b c d)) ∧
    ip_addr_pton " 1.2.3.4" = some (addrOf 1 2 3 4) ∧
    ip_addr_pton "1.2.3.-0" = some (addrOf 1 2 3 0) ∧
    ip_addr_pton "01.2.3.4" = some (addrOf 1 2 3 4) ∧
    ip_addr_pton "1.2.3.256" = none ∧
    ip_addr_pton "1.2.3.-1" = none ∧
    ip_addr_pton "1.2.3.4.5" = none ∧
    ip_addr_pton "a.1.2.3" = none ∧
    ip_addr_pton "1.2.3" = none := by
  have hof1 : addrOf a b c d % 256 = a := by unfold addrOf; omega
  have hof2 : addrOf a b c d / 256 % 256 = b := by unfold addrOf; omega
  have hof3 : addrOf a b c d / 65536 % 256 = c := by unfold addrOf; omega
  have hof4 : addrOf a b c d / 16777216 % 256 = d := by unfold addrOf; omega
  have hntop : ip_addr_ntop (addrOf a b c d) = String.mk (toDecimal a ++ '.' ::
      (toDecimal b ++ '.' :: (toDecimal c ++ '.' :: toDecimal d))) := by
    unfold ip_addr_ntop
    rw [hof1, hof2, hof3, hof4]
    simp [List.cons_append, List.append_assoc]
  have hpton : ip_addr_pton (ip_addr_ntop (addrOf a b c d)) =
      some (addrOf a b c d) := by
    rw [hntop]
    unfold ip_addr_pton
    have hdata : (String.mk (toDecimal a ++ '.' ::
        (toDecimal b ++ '.' :: (toDecimal c ++ '.' :: toDecimal d)))).data =
        toDecimal a ++ '.' ::
        (toDecimal b ++ '.' :: (toDecimal c ++ '.' :: toDecimal d)) := rfl
    rw [hdata, pton_comps_quad a b c d ha hb hc hd]
    simp [addrOf]
  refine ⟨hpton, ?_, by decide, by decide, by decide, by decide, by decide,
    by decide, by decide, by decide⟩
  rw [hpton]
  simp

/-- C9 counterexample: `ip_addr_pton` accepts the non-canonical string
" 1.2.3.4" with leading whitespace (returning the address 1.2.3.4, stored
little-endian as 67305985), because `strtol` skips leading whitespace —
refuting the claim that every non-canonical form, including strings with
leading whitespace, is rejected. -/
theorem C9_cex_whitespace : ip_addr_pton " 1.2.3.4" = some 67305985 := by
  decide

/-- Witness for C9: the theorem applied to the octets of 10.0.0.2. -/
theorem C9_witness :
    (10 < 256 ∧ 0 < 256 ∧ 0 < 256 ∧ 2 < 256) ∧
    ip_addr_pton (ip_addr_ntop (addrOf 10 0 0 2)) = some (addrOf 10 0 0 2) :=
  ⟨⟨by decide, by decide, by decide, by decide⟩,
    (C9_pton_ntop_roundtrip 10 0 0 2 (by decide) (by decide) (by decide)
      (by decide)).1⟩
